import Mathlib

/-
Verification development for the reactive-collection emulator of the
jazz-mock repository (src/core/reactive-collection.ts, src/core/jazz-api.ts,
src/core/index.ts).

The embedding is shallow: the timer machinery of `createDelayedBlobLoader`
becomes an explicit world of timer records advanced by an explicit clock,
JS values become an inductive `Value` type, and the Proxy traps of
`createReactiveRecord` / the defined properties of `createReactiveList`
become plain functions on the collection state.
-/

set_option autoImplicit false

namespace JazzMock

/-- A binary blob, identified by its content and MIME type.
    `new Blob(['mock'], \x7b type: 'application/octet-stream' \x7d)` becomes
    `⟨"mock", "application/octet-stream"⟩`. -/
structure Blob where
  content : String
  mime : String
deriving DecidableEq, Repr

/-- The default placeholder blob the loader builds when the wrapped file has
    no `toBlob` function (reactive-collection.ts line 54). -/
def mockBlob : Blob := ⟨"mock", "application/octet-stream"⟩

/-- The three observably distinct results of calling a blob accessor in JS:
    `undefined`, `null`, or an actual `Blob`. -/
inductive BlobAccess where
  | undefv
  | nullv
  | blobv (b : Blob)
deriving DecidableEq, Repr

/-- The possible behaviors of `originalFile.toBlob` as exercised by the
    loader callback (reactive-collection.ts lines 50-55):
    absent, synchronously throwing, returning a `Blob` or `undefined`,
    returning a promise that settles with a value, or a rejecting promise. -/
inductive BlobBehavior where
  | noFn
  | throws
  | ret (b : Option Blob)
  | promiseRet (v : BlobAccess)
  | promiseRej
deriving DecidableEq, Repr

/-- Effect of the `setTimeout` callback body on the loader's `blob` variable
    (reactive-collection.ts lines 49-57).  `some v` means the callback ran to
    completion and left `blob = v` with `blobReady = true`; `none` means the
    async callback threw (sync throw from `toBlob()`, or `await` of a rejected
    promise), so `blobReady = true` on line 56 is never reached.
    Note there is no try/catch around the body: a thrown error only produces
    an unhandled promise rejection.
    `ret none` is `result ?? null` for a synchronous `undefined`; a promise
    settling to `v` is `await result` with no `?? null` applied. -/
def fireOutcome : BlobBehavior → Option BlobAccess
  | .noFn => some (.blobv mockBlob)
  | .throws => none
  | .ret (some b) => some (.blobv b)
  | .ret none => some .nullv
  | .promiseRet v => some v
  | .promiseRej => none

/-- One delayed-blob-loader instance: the captured `toBlob` behavior, the
    absolute time its one-shot timer is due, whether the timer has been
    consumed (`fired`), whether it was cancelled by the bulk-cancel
    operation, and the closure state `blobReady` / `blob` of
    `createDelayedBlobLoader` (lines 45-46: `blobReady = false`,
    `blob = null`). -/
structure LoaderRec where
  beh : BlobBehavior
  fireAt : Nat
  fired : Bool := false
  cancelled : Bool := false
  blobReady : Bool := false
  blob : BlobAccess := .nullv
deriving DecidableEq, Repr

instance : Inhabited LoaderRec := ⟨{ beh := .noFn, fireAt := 0 }⟩

/-- A timer scheduled by unrelated code (not by this component). -/
structure OtherTimer where
  fireAt : Nat
  fired : Bool := false
deriving DecidableEq, Repr

/-- The timer world: current time, the component's registry of loader
    timers, and timers owned by unrelated code. -/
structure World where
  now : Nat := 0
  loaders : List LoaderRec := []
  others : List OtherTimer := []
deriving Repr

/-- Register a delayed blob loader: schedule its one-shot timer `delayMs`
    from now (reactive-collection.ts lines 41-57) and return the index of
    the new record.  Modelled from the spec in one respect: registration of
    the timer handle in a process-wide registry (spec section 9, "Global
    mutable timer registry") is required by the exported
    `clearBlobLoaderTimers` (src/core/index.ts), whose definition is absent
    from src; here the registry is `World.loaders` itself. -/
def createDelayedBlobLoader (w : World) (beh : BlobBehavior) (delayMs : Nat) :
    World × Nat :=
  ({ w with loaders := w.loaders ++ [{ beh := beh, fireAt := w.now + delayMs }] },
   w.loaders.length)

/-- Run the timer callback on one loader record: apply `fireOutcome`; a
    completed callback stores the blob and sets `blobReady`; a throwing
    callback leaves the closure state untouched.  Either way the one-shot
    timer is consumed. -/
def fireLoader (l : LoaderRec) : LoaderRec :=
  match fireOutcome l.beh with
  | some v => { l with fired := true, blobReady := true, blob := v }
  | none => { l with fired := true }

/-- Advance one loader to time `t`: its timer runs iff it is still pending,
    was not cancelled, and is due. -/
def advanceLoader (t : Nat) (l : LoaderRec) : LoaderRec :=
  if !l.fired && !l.cancelled && l.fireAt ≤ t then fireLoader l else l

/-- Advance the world clock to time `t`, running every due timer (the
    component's and unrelated code's alike). -/
def advanceTo (w : World) (t : Nat) : World :=
  { now := t,
    loaders := w.loaders.map (advanceLoader t),
    others := w.others.map fun o => if o.fireAt ≤ t then { o with fired := true } else o }

/-- Modelled from the spec: `clearBlobLoaderTimers` is exported by
    src/core/index.ts and exercised by the repository's reactive-collection
    tests, but its definition (and the timer registry it clears) is not in
    src.  Per spec sections 4.3 and 9 it is a parameterless bulk-cancel that
    stops every currently pending resolution timer created by this component
    without transitioning any wrapper to Resolved, and touches nothing
    else. -/
def clearBlobLoaderTimers (w : World) : World :=
  { w with loaders := w.loaders.map fun l => if l.fired then l else { l with cancelled := true } }

/-- The wrapper's resolution accessor (reactive-collection.ts lines 62-65):
    `blobReady ? blob : undefined`. -/
def toBlobAccess (l : LoaderRec) : BlobAccess :=
  if l.blobReady then l.blob else .undefv

/-- Read the resolution accessor of the loader with index `lid`. -/
def readToBlob (w : World) (lid : Nat) : BlobAccess :=
  match w.loaders[lid]? with
  | some l => toBlobAccess l
  | none => .undefv

/-- A JS value as stored in a collection.  A `fileCap beh` is a plain file
    object whose `toBlob` member has behavior `beh`; a `loaderRef lid` is
    the object returned by `createDelayedBlobLoader`, identified by its
    timer record (its extra spread-in fields and `$isLoaded: true` member
    are not needed by any claim and are not modelled). -/
inductive Value where
  | undefv
  | nullv
  | boolv (b : Bool)
  | num (n : Int)
  | str (s : String)
  | blobv (b : Blob)
  | fileCap (beh : BlobBehavior)
  | loaderRef (lid : Nat)
  | obj (fields : List (String × Value))
deriving Repr

/-- First binding of `key` in a JS-object field list. -/
def objFind : List (String × Value) → String → Option Value
  | [], _ => none
  | (k, v) :: rest, key => if k = key then some v else objFind rest key

/-- JS-object assignment on a field list: an existing key is overwritten in
    place (keeping its position in key order), a new key is appended. -/
def objSet : List (String × Value) → String → Value → List (String × Value)
  | [], key, v => [(key, v)]
  | (k, w) :: rest, key, v =>
      if k = key then (key, v) :: rest else (k, w) :: objSet rest key v

/-- JS `delete obj[key]`. -/
def objDelete : List (String × Value) → String → List (String × Value)
  | [], _ => []
  | (k, w) :: rest, key => if k = key then rest else (k, w) :: objDelete rest key

/-- The wrapping test of `$jazz.set` / `$jazz.push`
    (reactive-collection.ts lines 120 and 200):
    `value && typeof value === 'object' && 'file' in value`. -/
def hasFileField : Value → Bool
  | .obj fs => (objFind fs "file").isSome
  | _ => false

/-- Behavior of `originalFile.toBlob` as `createDelayedBlobLoader` sees it:
    a `fileCap` carries its behavior, anything else has no callable `toBlob`
    (`typeof originalFile.toBlob === 'function'` is false).  Re-wrapping an
    already-wrapped loader object (whose accessor is itself a function) is
    exercised by no claim and not modelled. -/
def fileBehavior : Value → BlobBehavior
  | .fileCap beh => beh
  | _ => .noFn

/-- Options object of both collection factories
    (reactive-collection.ts lines 14-32): absent fields are `none`. -/
structure ReactiveCollectionOptions where
  simulateAsyncLoading : Option Bool := none
  asyncLoadDelayMs : Option Nat := none

/-- State of a record collection: the backing `data` object plus the
    configuration captured at creation
    (reactive-collection.ts lines 113-115). -/
structure RecordCol where
  data : List (String × Value) := []
  simulateAsync : Bool := false
  loadDelay : Nat := 100

/-- `createReactiveRecord(options)` (lines 110-115): empty backing object,
    `options.simulateAsyncLoading ?? false`, `options.asyncLoadDelayMs ?? 100`. -/
def createReactiveRecord (options : ReactiveCollectionOptions) : RecordCol :=
  { data := [],
    simulateAsync := options.simulateAsyncLoading.getD false,
    loadDelay := options.asyncLoadDelayMs.getD 100 }

/-- Shallow copy of `value` with its `file` field replaced by the loader
    object (lines 122-128): `\x7b ...value, file: createDelayedBlobLoader(...) \x7d`. -/
def wrapFileField (v : Value) (lid : Nat) : Value :=
  match v with
  | .obj fs => .obj (objSet fs "file" (.loaderRef lid))
  | v => v

/-- `$jazz.set(key, value)` of a reactive record
    (reactive-collection.ts lines 119-133).  The record's own `$jazz`
    overrides the generic mock API with a write-through implementation. -/
def jazzSet (w : World) (c : RecordCol) (key : String) (v : Value) :
    World × RecordCol :=
  if c.simulateAsync && hasFileField v then
    match v with
    | .obj fs =>
        match objFind fs "file" with
        | some fv =>
            let (w', lid) := createDelayedBlobLoader w (fileBehavior fv) c.loadDelay
            (w', { c with data := objSet c.data key (.obj (objSet fs "file" (.loaderRef lid))) })
        | none => (w, { c with data := objSet c.data key v })
    | _ => (w, { c with data := objSet c.data key v })
  else
    (w, { c with data := objSet c.data key v })

/-- `$jazz.delete(key)` (lines 134-136). -/
def jazzDelete (c : RecordCol) (key : String) : RecordCol :=
  { c with data := objDelete c.data key }

/-- `$jazz.has(key)` (line 137): `key in data`. -/
def jazzHas (c : RecordCol) (key : String) : Bool :=
  (objFind c.data key).isSome

/-- `$jazz.get(key)` (line 138): `data[key]`, `undefined` when absent. -/
def jazzGet (c : RecordCol) (key : String) : Value :=
  (objFind c.data key).getD .undefv

/-- Result of a property read through the record Proxy's get trap
    (lines 142-146): the literal `true` for the loaded flag, the mutation
    interface object for the jazz handle, or `target[prop]`. -/
inductive ReadVal where
  | loadedFlag
  | jazzHandle
  | dataVal (v : Value)
deriving Repr

/-- The record Proxy's get trap (reactive-collection.ts lines 142-146). -/
def recordRead (c : RecordCol) (key : String) : ReadVal :=
  if key = "$isLoaded" then .loadedFlag
  else if key = "$jazz" then .jazzHandle
  else .dataVal ((objFind c.data key).getD .undefv)

/-- JS `prop.startsWith('$')` at character level: the first character of
    the property name is the meta prefix. -/
def startsWithDollar (key : String) : Bool :=
  match key.data with
  | '$' :: _ => true
  | _ => false

/-- The record Proxy's set trap (lines 147-152): a direct assignment lands
    in the backing object unless the key starts with the meta prefix
    (`typeof prop === 'string' && !prop.startsWith('$')`; only string keys
    are modelled). -/
def recordAssign (c : RecordCol) (key : String) (v : Value) : RecordCol :=
  if startsWithDollar key then c else { c with data := objSet c.data key v }

/-- The record Proxy's has trap (lines 153-156). -/
def recordHasProp (c : RecordCol) (key : String) : Bool :=
  key = "$isLoaded" || key = "$jazz" || (objFind c.data key).isSome

/-- The record Proxy's ownKeys trap (lines 157-159): `Object.keys(target)`. -/
def recordOwnKeys (c : RecordCol) : List String :=
  c.data.map (·.1)

/-- `Object.keys` of the proxied record: the ownKeys trap filtered by the
    enumerability the getOwnPropertyDescriptor trap reports
    (lines 160-169): the two meta names are non-enumerable, every other
    key is enumerable. -/
def recordEnumKeys (c : RecordCol) : List String :=
  (recordOwnKeys c).filter fun k => !(k = "$isLoaded" || k = "$jazz")

/-- State of a list collection (reactive-collection.ts lines 189-224):
    the backing array, the captured configuration, and the argument log of
    the `splice` mock (the `vi.fn` wrapper records every argument actually
    passed at a call site, including inserted items beyond the two declared
    parameters). -/
structure ListCol where
  data : List Value := []
  simulateAsync : Bool := false
  loadDelay : Nat := 100
  spliceCalls : List (Int × Int × List Value) := []

/-- `createReactiveList(initialItems, options)` (lines 189-195):
    `const data = [...initialItems]` snapshots the caller's array (the
    reference-level consequence of the copy is modelled by
    `createReactiveListHeap` below); initial items are stored as given. -/
def createReactiveList (initialItems : List Value)
    (options : ReactiveCollectionOptions) : ListCol :=
  { data := initialItems,
    simulateAsync := options.simulateAsyncLoading.getD false,
    loadDelay := options.asyncLoadDelayMs.getD 100 }

/-- `$jazz.push(value)` of a reactive list (lines 199-212): same wrapping
    rule as `jazzSet`, then `data.push(...)`. -/
def jazzPush (w : World) (c : ListCol) (v : Value) : World × ListCol :=
  if c.simulateAsync && hasFileField v then
    match v with
    | .obj fs =>
        match objFind fs "file" with
        | some fv =>
            let (w', lid) := createDelayedBlobLoader w (fileBehavior fv) c.loadDelay
            (w', { c with data := c.data ++ [.obj (objSet fs "file" (.loaderRef lid))] })
        | none => (w, { c with data := c.data ++ [v] })
    | _ => (w, { c with data := c.data ++ [v] })
  else
    (w, { c with data := c.data ++ [v] })

/-- JS `Array.prototype.splice(start, deleteCount)` restricted to removal,
    which is all the implementation forwards: negative `start` counts from
    the end, both arguments are clamped to the array bounds. -/
def jsSpliceRemove (xs : List Value) (start delCount : Int) : List Value :=
  let len : Int := xs.length
  let actualStart : Nat := (if start < 0 then max (len + start) 0 else min start len).toNat
  let dc : Nat := (min (max delCount 0) (len - actualStart)).toNat
  xs.take actualStart ++ xs.drop (actualStart + dc)

/-- `$jazz.splice` of a reactive list (reactive-collection.ts lines
    213-215): the implementation is `(index, count) => data.splice(index,
    count)` — any items passed beyond the two declared parameters are
    recorded by the `vi.fn` wrapper but never forwarded to `data.splice`,
    so they are not inserted and not wrapped. -/
def jazzSplice (c : ListCol) (index count : Int) (items : List Value) : ListCol :=
  { c with
    data := jsSpliceRemove c.data index count,
    spliceCalls := c.spliceCalls ++ [(index, count, items)] }

/-- Canonical decimal digits of a natural number, most significant first:
    the character content of a JS array-index property name. -/
def decimalDigits (n : Nat) : List Char :=
  if n < 10 then [Char.ofNat (48 + n)]
  else decimalDigits (n / 10) ++ [Char.ofNat (48 + n % 10)]
decreasing_by exact Nat.div_lt_self (by omega) (by omega)

/-- The property name under which a JS array exposes index `n`. -/
def natKey (n : Nat) : String :=
  String.mk (decimalDigits n)

/-- `Object.keys` of a reactive list: the array's index keys.  The `length`
    property is non-enumerable by the language, and `$isLoaded` / `$jazz`
    are installed with `enumerable: false` (lines 220-221). -/
def listEnumKeys (c : ListCol) : List String :=
  (List.range c.data.length).map natKey

/-- The `in` existence check on a reactive list: the two defined meta
    properties, the array's own `length`, and its index keys. -/
def listHasProp (c : ListCol) (key : String) : Bool :=
  key = "$isLoaded" || key = "$jazz" || key = "length" ||
    (listEnumKeys c).contains key

/-- Property read on a reactive list: the two meta properties installed by
    `Object.defineProperty` (lines 220-221), else array index lookup. -/
def listRead (c : ListCol) (key : String) : ReadVal :=
  if key = "$isLoaded" then .loadedFlag
  else if key = "$jazz" then .jazzHandle
  else
    match (List.range c.data.length).find? (fun i => natKey i = key) with
    | some i => .dataVal (c.data.getD i .undefv)
    | none => .dataVal .undefv

/-- Read `item.file.toBlob()` on a stored item whose `file` field is a
    delayed-loader wrapper.  Calling `toBlob` on an unwrapped capability is
    exercised by no claim and not modelled: the read yields `undefined`. -/
def fileToBlob (w : World) (v : Value) : BlobAccess :=
  match v with
  | .obj fs =>
      match objFind fs "file" with
      | some (.loaderRef lid) => readToBlob w lid
      | _ => .undefv
  | _ => .undefv

/-- `record[key].file.toBlob()`. -/
def itemFileAccess (w : World) (c : RecordCol) (key : String) : BlobAccess :=
  fileToBlob w (jazzGet c key)

/-- A store of JS arrays addressed by reference, for the one claim that is
    about reference identity: `const data = [...initialItems]` versus an
    alias of the caller's array. -/
abbrev ArrStore : Type := List (List Value)

/-- Dereference an array. -/
def arrGet (s : ArrStore) (r : Nat) : List Value :=
  s[r]?.getD []

/-- Mutate the array behind reference `r` in place (any in-place mutation
    of a JS array changes its contents while keeping its identity). -/
def arrMutate (s : ArrStore) (r : Nat) (xs : List Value) : ArrStore :=
  List.set s r xs

/-- The allocation performed by `createReactiveList` (line 193):
    `const data = [...initialItems]` reads the caller's array once and
    allocates a fresh array holding a copy; the returned reference is the
    backing array of the new list. -/
def createReactiveListHeap (s : ArrStore) (callerRef : Nat) : ArrStore × Nat :=
  (s ++ [arrGet s callerRef], s.length)

/-! ## Helper lemmas -/

theorem objFind_objSet_self (d : List (String × Value)) (k : String) (v : Value) :
    objFind (objSet d k v) k = some v := by
  induction d with
  | nil => simp [objSet, objFind]
  | cons hd tl ih =>
    obtain ⟨k', v'⟩ := hd
    by_cases h : k' = k
    · simp [objSet, h, objFind]
    · simp [objSet, h, objFind, ih]

theorem decimalDigits_ne_dollar (n : Nat) : ∀ ch ∈ decimalDigits n, ch ≠ '$' := by
  induction n using Nat.strong_induction_on with
  | _ n ih =>
    have hd : ∀ d : Nat, d < 10 → Char.ofNat (48 + d) ≠ '$' := by decide
    unfold decimalDigits
    split
    case isTrue h =>
      intro ch hch
      simp only [List.mem_singleton] at hch
      subst hch
      exact hd n h
    case isFalse h =>
      intro ch hch
      rcases List.mem_append.mp hch with h1 | h2
      · exact ih (n / 10) (Nat.div_lt_self (by omega) (by omega)) ch h1
      · simp only [List.mem_singleton] at h2
        subst h2
        exact hd (n % 10) (Nat.mod_lt n (by omega))

/-- An array-index property name never equals a name whose first character
    is the meta prefix. -/
theorem natKey_ne_dollar_name (n : Nat) (s : String) (hs : s.data.head? = some '$') :
    natKey n ≠ s := by
  intro he
  have hdata : decimalDigits n = s.data := congrArg String.data he
  have hmem : '$' ∈ decimalDigits n := by
    rw [hdata]
    cases hsd : s.data with
    | nil => rw [hsd] at hs; exact Option.noConfusion hs
    | cons a tl =>
      rw [hsd] at hs
      simp only [List.head?_cons, Option.some.injEq] at hs
      subst hs
      exact List.mem_cons_self _ _
  exact decimalDigits_ne_dollar n '$' hmem rfl

/-- If the timer callback dies (sync throw or awaited rejection) and the
    closure was still pending, the accessor stays `undefined` at every
    time. -/
theorem toBlobAccess_advanceLoader_of_none (t : Nat) (l : LoaderRec)
    (h1 : fireOutcome l.beh = none) (h2 : l.blobReady = false) :
    toBlobAccess (advanceLoader t l) = .undefv := by
  unfold advanceLoader
  split
  · simp [fireLoader, h1, toBlobAccess, h2]
  · simp [toBlobAccess, h2]

/-! ## Claim theorems -/

/-- C1: the parameterless bulk-cancel operation `clearBlobLoaderTimers`
    (modelled from the spec, its definition being absent from src) cancels
    every currently pending delayed-resolution timer of the component —
    a cancelled wrapper's resolution accessor keeps returning undefined at
    every later time — it never transitions a wrapper to Resolved
    (`blobReady` is preserved on every record), it is idempotent, it is the
    identity when zero timers exist, and it leaves timers scheduled by
    unrelated code entirely unaffected. -/
theorem clearBlobLoaderTimers_spec :
    (∀ (w : World) (lid : Nat) (l : LoaderRec),
        w.loaders[lid]? = some l → l.fired = false → l.blobReady = false →
        ∀ t : Nat,
          readToBlob (advanceTo (clearBlobLoaderTimers w) t) lid = .undefv)
  ∧ (∀ (w : World) (lid : Nat),
        ((clearBlobLoaderTimers w).loaders[lid]?).map LoaderRec.blobReady
          = (w.loaders[lid]?).map LoaderRec.blobReady)
  ∧ (∀ w : World,
        clearBlobLoaderTimers (clearBlobLoaderTimers w) = clearBlobLoaderTimers w)
  ∧ (∀ w : World, w.loaders = [] → clearBlobLoaderTimers w = w)
  ∧ (∀ (w : World) (t : Nat),
        (advanceTo (clearBlobLoaderTimers w) t).others = (advanceTo w t).others) := by
  refine ⟨?_, ?_, ?_, ?_, ?_⟩
  · intro w lid l hl hf hr t
    unfold readToBlob
    have h2 : (advanceTo (clearBlobLoaderTimers w) t).loaders[lid]?
        = some (advanceLoader t { l with cancelled := true }) := by
      simp [advanceTo, clearBlobLoaderTimers, List.getElem?_map, hl, hf]
    rw [h2]
    have h3 : advanceLoader t { l with cancelled := true }
        = { l with cancelled := true } := by
      simp [advanceLoader]
    rw [h3]
    simp [toBlobAccess, hr]
  · intro w lid
    simp only [clearBlobLoaderTimers, List.getElem?_map]
    cases w.loaders[lid]? with
    | none => rfl
    | some l =>
      simp only [Option.map_some']
      split <;> rfl
  · intro w
    simp only [clearBlobLoaderTimers, List.map_map]
    congr 1
    apply List.map_congr_left
    intro l _
    by_cases h : l.fired <;> simp [Function.comp, h]
  · intro w h
    cases w
    simp_all [clearBlobLoaderTimers]
  · intro w t
    rfl

/-- Witness for C1: a world holding one pending loader timer due at time
    100; after bulk-cancel and advancing the clock to 1000, the wrapper's
    resolution accessor still returns undefined. -/
theorem clearBlobLoaderTimers_spec_witness :
    readToBlob
      (advanceTo
        (clearBlobLoaderTimers
          { now := 0, loaders := [{ beh := .ret (some mockBlob), fireAt := 100 }],
            others := [] })
        1000)
      0 = .undefv :=
  clearBlobLoaderTimers_spec.1
    { now := 0, loaders := [{ beh := .ret (some mockBlob), fireAt := 100 }], others := [] }
    0 { beh := .ret (some mockBlob), fireAt := 100 } rfl rfl rfl 1000

/-- C2, evaluated at the failing input: insert, into a record configured
    for deferred resolution with delay 50, an item whose resolution
    capability throws synchronously.  The timer callback has no try/catch,
    so `blobReady` is never set and the resolution accessor returns
    undefined — not the claimed terminal null — at every time, including
    every time past the delay. -/
theorem resolution_throw_leaves_accessor_undefined :
    ∀ t : Nat,
      itemFileAccess
        (advanceTo
          (jazzSet {}
            (createReactiveRecord
              { simulateAsyncLoading := some true, asyncLoadDelayMs := some 50 })
            "item" (.obj [("file", .fileCap .throws)])).1
          t)
        (jazzSet {}
          (createReactiveRecord
            { simulateAsyncLoading := some true, asyncLoadDelayMs := some 50 })
          "item" (.obj [("file", .fileCap .throws)])).2
        "item" = .undefv := by
  intro t
  show toBlobAccess (advanceLoader t { beh := .throws, fireAt := 50 }) = .undefv
  exact toBlobAccess_advanceLoader_of_none t _ rfl rfl

/-- C3, evaluated at the failing input: on a list configured for deferred
    resolution, `$jazz.splice(0, 0, item)` records the call with the
    inserted item, but the implementation forwards only index and count to
    the backing `data.splice`, so the item is never inserted (the list
    stays empty) and never wrapped. -/
theorem splice_discards_inserted_items :
    (jazzSplice { simulateAsync := true, loadDelay := 50 } 0 0
        [.obj [("file", .fileCap .throws)]]).data = []
  ∧ (jazzSplice { simulateAsync := true, loadDelay := 50 } 0 0
        [.obj [("file", .fileCap .throws)]]).spliceCalls
      = [(0, 0, [.obj [("file", .fileCap .throws)]])] :=
  ⟨rfl, rfl⟩

/-- C4, evaluated at the failing input: insert, into a record configured
    for deferred resolution with delay 50, an item whose resolution
    capability returns a rejecting promise.  The awaited rejection kills
    the timer callback before `blobReady` is set, so the resolution
    accessor returns undefined at every time — in particular it never
    returns a defined value at times at or past the delay, contrary to the
    claim. -/
theorem resolution_reject_leaves_accessor_undefined :
    ∀ t : Nat,
      itemFileAccess
        (advanceTo
          (jazzSet {}
            (createReactiveRecord
              { simulateAsyncLoading := some true, asyncLoadDelayMs := some 50 })
            "img" (.obj [("file", .fileCap .promiseRej)])).1
          t)
        (jazzSet {}
          (createReactiveRecord
            { simulateAsyncLoading := some true, asyncLoadDelayMs := some 50 })
          "img" (.obj [("file", .fileCap .promiseRej)])).2
        "img" = .undefv := by
  intro t
  show toBlobAccess (advanceLoader t { beh := .promiseRej, fireAt := 50 }) = .undefv
  exact toBlobAccess_advanceLoader_of_none t _ rfl rfl

/-- C5: for every record and list collection, enumerating own keys never
    surfaces the loaded-flag or mutation-interface names, while the `in`
    existence check for both names is true, and reading them yields the
    `true` flag and the mutation-interface object respectively. -/
theorem meta_attributes_hidden :
    (∀ c : RecordCol,
        "$isLoaded" ∉ recordEnumKeys c ∧ "$jazz" ∉ recordEnumKeys c
      ∧ recordHasProp c "$isLoaded" = true ∧ recordHasProp c "$jazz" = true
      ∧ recordRead c "$isLoaded" = .loadedFlag ∧ recordRead c "$jazz" = .jazzHandle)
  ∧ (∀ c : ListCol,
        "$isLoaded" ∉ listEnumKeys c ∧ "$jazz" ∉ listEnumKeys c
      ∧ listHasProp c "$isLoaded" = true ∧ listHasProp c "$jazz" = true
      ∧ listRead c "$isLoaded" = .loadedFlag ∧ listRead c "$jazz" = .jazzHandle) := by
  constructor
  · intro c
    refine ⟨?_, ?_, rfl, rfl, rfl, rfl⟩
    · intro hmem
      simp [recordEnumKeys, List.mem_filter] at hmem
    · intro hmem
      simp [recordEnumKeys, List.mem_filter] at hmem
  · intro c
    refine ⟨?_, ?_, rfl, rfl, rfl, rfl⟩
    · intro hmem
      simp only [listEnumKeys, List.mem_map] at hmem
      obtain ⟨i, _, hi⟩ := hmem
      exact natKey_ne_dollar_name i "$isLoaded" rfl hi
    · intro hmem
      simp only [listEnumKeys, List.mem_map] at hmem
      obtain ⟨i, _, hi⟩ := hmem
      exact natKey_ne_dollar_name i "$jazz" rfl hi

/-- C6 counterexample: the claim as stated fails on the key `$foo` — a key
    that is not one of the two meta-attribute names — because the set trap
    ignores every key beginning with the meta prefix: after a direct
    assignment of 42 to `$foo`, reading `$foo` does not yield 42. -/
theorem assign_dollar_prefixed_key_ignored :
    recordRead (recordAssign (createReactiveRecord {}) "$foo" (.num 42)) "$foo"
      ≠ .dataVal (.num 42) := by
  intro h
  have h' : ReadVal.dataVal Value.undefv = ReadVal.dataVal (Value.num 42) := h
  injection h' with h2
  exact Value.noConfusion h2

/-- C6 amended: direct assignment to any key whose name does not begin
    with the `$` meta prefix is reflected in subsequent reads of that key,
    while assignment to any `$`-prefixed name — the two meta-attribute
    names included — is silently ignored and leaves the collection state
    entirely unchanged. -/
theorem direct_assignment_spec :
    (∀ (c : RecordCol) (k : String) (v : Value), startsWithDollar k = false →
        recordRead (recordAssign c k v) k = .dataVal v)
  ∧ (∀ (c : RecordCol) (k : String) (v : Value), startsWithDollar k = true →
        recordAssign c k v = c) := by
  constructor
  · intro c k v h
    have h1 : k ≠ "$isLoaded" := by
      intro he
      subst he
      exact Bool.noConfusion (h.symm.trans (rfl : startsWithDollar "$isLoaded" = true))
    have h2 : k ≠ "$jazz" := by
      intro he
      subst he
      exact Bool.noConfusion (h.symm.trans (rfl : startsWithDollar "$jazz" = true))
    rw [recordAssign, if_neg (by simp [h])]
    rw [recordRead]
    rw [if_neg h1, if_neg h2]
    simp [objFind_objSet_self]
  · intro c k v h
    simp [recordAssign, h]

/-- Witness for C6's amended claim: assignment to a plain key is read
    back, assignment to the mutation-interface name leaves the collection
    unchanged. -/
theorem direct_assignment_spec_witness :
    recordRead (recordAssign (createReactiveRecord {}) "name" (.str "x")) "name"
        = .dataVal (.str "x")
  ∧ recordAssign (createReactiveRecord {}) "$jazz" (.num 1)
      = createReactiveRecord {} :=
  ⟨direct_assignment_spec.1 (createReactiveRecord {}) "name" (.str "x") rfl,
   direct_assignment_spec.2 (createReactiveRecord {}) "$jazz" (.num 1) rfl⟩

/-- C7: on a collection not configured for deferred resolution, `set` and
    `push` store any value — attachment-bearing or not — exactly as given:
    no loader is scheduled (the world is untouched) and the stored value is
    the inserted one. -/
theorem plain_config_stores_exact :
    (∀ (w : World) (c : RecordCol) (k : String) (v : Value),
        c.simulateAsync = false →
        (jazzSet w c k v).1 = w ∧ jazzGet (jazzSet w c k v).2 k = v)
  ∧ (∀ (w : World) (c : ListCol) (v : Value),
        c.simulateAsync = false →
        (jazzPush w c v).1 = w ∧ (jazzPush w c v).2.data = c.data ++ [v]) := by
  constructor
  · intro w c k v h
    constructor
    · simp [jazzSet, h]
    · simp [jazzSet, h, jazzGet, objFind_objSet_self]
  · intro w c v h
    constructor
    · simp [jazzPush, h]
    · simp [jazzPush, h]

/-- Witness for C7: a record and a list in the default configuration store
    an attachment-bearing value untouched. -/
theorem plain_config_stores_exact_witness :
    ((jazzSet {} (createReactiveRecord {}) "k"
        (.obj [("file", .fileCap .throws)])).1 = ({} : World)
      ∧ jazzGet (jazzSet {} (createReactiveRecord {}) "k"
          (.obj [("file", .fileCap .throws)])).2 "k"
        = .obj [("file", .fileCap .throws)])
  ∧ ((jazzPush {} (createReactiveList [] {}) (.obj [("file", .fileCap .throws)])).1
        = ({} : World)
      ∧ (jazzPush {} (createReactiveList [] {})
          (.obj [("file", .fileCap .throws)])).2.data
        = (createReactiveList [] {}).data ++ [.obj [("file", .fileCap .throws)]]) :=
  ⟨plain_config_stores_exact.1 {} (createReactiveRecord {}) "k"
      (.obj [("file", .fileCap .throws)]) rfl,
   plain_config_stores_exact.2 {} (createReactiveList [] {})
      (.obj [("file", .fileCap .throws)]) rfl⟩

/-- C8: on a (write-through) record collection, `set(k, v)` followed by
    `get(k)` returns `v` itself when the deferred-wrapping rule does not
    apply, and otherwise a shallow copy of `v` whose `file` field is
    replaced by the freshly created delayed payload wrapper. -/
theorem set_get_roundtrip (w : World) (c : RecordCol) (k : String) (v : Value) :
    jazzGet (jazzSet w c k v).2 k =
      if c.simulateAsync && hasFileField v then
        wrapFileField v w.loaders.length
      else v := by
  by_cases hb : (c.simulateAsync && hasFileField v) = true
  · obtain ⟨h1, h2⟩ := Bool.and_eq_true_iff.mp hb
    rw [if_pos hb]
    cases v with
    | undefv => simp [hasFileField] at h2
    | nullv => simp [hasFileField] at h2
    | boolv b => simp [hasFileField] at h2
    | num n => simp [hasFileField] at h2
    | str s => simp [hasFileField] at h2
    | blobv b => simp [hasFileField] at h2
    | fileCap beh => simp [hasFileField] at h2
    | loaderRef lid => simp [hasFileField] at h2
    | obj fs =>
      cases hf : objFind fs "file" with
      | some fv =>
        simp [jazzSet, h1, h2, hf, jazzGet, objFind_objSet_self, wrapFileField,
          createDelayedBlobLoader]
      | none =>
        rw [hasFileField, hf] at h2
        exact Bool.noConfusion h2
  · rw [if_neg hb]
    simp only [Bool.not_eq_true] at hb
    simp [jazzSet, hb, jazzGet, objFind_objSet_self]

/-- C10: `createReactiveList` snapshots the caller's array at creation —
    mutating the caller's array afterwards leaves the list's backing array
    holding the original contents — initial items are stored as given (in
    particular never wrapped, whatever the configuration), and only items
    pushed later through the mutation interface undergo the
    deferred-wrapping rule. -/
theorem list_snapshot_and_push_wrap :
    (∀ (s : ArrStore) (callerRef : Nat) (xs : List Value),
        callerRef < s.length →
        arrGet (arrMutate (createReactiveListHeap s callerRef).1 callerRef xs)
            (createReactiveListHeap s callerRef).2
          = arrGet s callerRef)
  ∧ (∀ (initialItems : List Value) (o : ReactiveCollectionOptions),
        (createReactiveList initialItems o).data = initialItems)
  ∧ (∀ (w : World) (c : ListCol) (fs : List (String × Value)) (fv : Value),
        c.simulateAsync = true → objFind fs "file" = some fv →
        (jazzPush w c (.obj fs)).2.data
          = c.data ++ [.obj (objSet fs "file" (.loaderRef w.loaders.length))]) := by
  refine ⟨?_, fun _ _ => rfl, ?_⟩
  · intro s r xs hr
    show ((s ++ [arrGet s r]).set r xs)[s.length]?.getD [] = arrGet s r
    rw [List.getElem?_set_ne (Nat.ne_of_lt hr)]
    rw [List.getElem?_concat_length]
    rfl
  · intro w c fs fv h1 h2
    simp [jazzPush, h1, hasFileField, h2, createDelayedBlobLoader]

/-- Witness for C10: mutating the caller's array after creating a list from
    it does not change the list's snapshot, and pushing an
    attachment-bearing item under deferred configuration stores the
    wrapped copy. -/
theorem list_snapshot_and_push_wrap_witness :
    arrGet (arrMutate (createReactiveListHeap [[Value.num 1]] 0).1 0 [.num 2])
        (createReactiveListHeap [[Value.num 1]] 0).2
      = arrGet [[Value.num 1]] 0
  ∧ (jazzPush {} { simulateAsync := true, loadDelay := 100 }
        (.obj [("file", .fileCap .promiseRej)])).2.data
      = ({ simulateAsync := true, loadDelay := 100 } : ListCol).data
          ++ [.obj (objSet [("file", .fileCap .promiseRej)] "file" (.loaderRef 0))] :=
  ⟨list_snapshot_and_push_wrap.1 [[Value.num 1]] 0 [.num 2] (by decide),
   list_snapshot_and_push_wrap.2.2 {} { simulateAsync := true, loadDelay := 100 }
      [("file", .fileCap .promiseRej)] (.fileCap .promiseRej) rfl rfl⟩

end JazzMock
